import Mathlib

/-!
Verification development for the BestInfoU Feed Synchronization Engine.

The repository ships the client (src/client/lib/rss.ts, src/client/App.tsx,
the admin layout and management pages) together with the RSS module design
doc.  The server-side engine itself (refresh coordinator, scheduler,
deduplicator, stores) is not among the shipped files, so those parts are
modelled here faithfully from the specification's own words (each such
definition says so in its doc comment); the client wrappers, the admin
layout guard and the module doc's scheduler description are embedded from
the shipped sources.

Timestamps are modelled as natural numbers (minutes).
-/

namespace BestInfoU

/-- Modelled from the spec: a feed Source (§3 data model).  Identity `id`,
required `feed_url`, optional presentation fields, `is_active` gating
scheduling, per-source `sync_interval_minutes`, and nullable
`last_synced_at`. -/
structure Source where
  id : Nat
  feed_url : String
  homepage_url : Option String
  avatar_url : Option String
  description : Option String
  language : Option String
  category : Option String
  is_active : Bool
  sync_interval_minutes : Nat
  last_synced_at : Option Nat
deriving DecidableEq

/-- Modelled from the spec: one raw entry record produced by the Feed
Parser (§4.4): `{guid?, title, summary?, body?, link?, author?,
published_at?}` with every display field possibly absent in the raw
document. -/
structure RawEntry where
  guid : Option String
  title : Option String
  summary : Option String
  body : Option String
  link : Option String
  author : Option String
  published_at : Option Nat
deriving DecidableEq

/-- Modelled from the spec: a stored Entry (§3).  Both dedup keys (`guid`
and `content_hash`) are stored per entry regardless of which one triggered
uniqueness (§9). -/
structure Entry where
  source_id : Nat
  guid : Option String
  content_hash : Nat
  title : String
  summary : Option String
  body : Option String
  link : Option String
  author : Option String
  published_at : Option Nat
  fetched_at : Nat
deriving DecidableEq

/-- FetchLog status: `running`, `success` or `failed` (§3). -/
inductive FetchStatus where
  | running
  | success
  | failed
deriving DecidableEq

/-- Modelled from the spec: a FetchLog row (§3), the sole persisted record
of a refresh attempt.  `entries_fetched` counts newly inserted entries,
not total parsed. -/
structure FetchLog where
  id : Nat
  source_id : Nat
  status : FetchStatus
  started_at : Nat
  finished_at : Option Nat
  error_message : Option String
  entries_fetched : Nat
deriving DecidableEq

/-- Modelled from the spec: the shared persistent state — Source Store,
Entry Store, Fetch Log Store — plus the per-source refresh locks (§5) and
the fresh-id counter for FetchLog rows. -/
structure EngineState where
  sources : List Source
  entries : List Entry
  fetchLogs : List FetchLog
  locks : List Nat
  nextLogId : Nat
deriving DecidableEq

/-- Modelled from the spec: normalization applied to title and body before
hashing ("stable hash of normalized title + body", §4.5). -/
def normalizeText (s : String) : String := s.trim

/-- Modelled from the spec: a stable string hash used for `content_hash`. -/
def strHash (s : String) : Nat :=
  s.foldl (fun h c => (h * 131 + c.toNat) % 1000000007) 7

/-- Modelled from the spec: `content_hash` is the stable hash of the
normalized title concatenated with the normalized body (§4.5). -/
def contentHash (title body : String) : Nat :=
  strHash (normalizeText title ++ normalizeText body)

/-- Modelled from the spec: an entry is structurally valid unless it lacks
both a title and a link; such entries are dropped silently by the parser
(§4.4). -/
def structurallyValid (r : RawEntry) : Bool :=
  r.title.isSome || r.link.isSome

/-- Modelled from the spec: the Feed Parser (§4.4).  The payload is either
not recognizable as a feed (ParseError) or an ordered list of raw entries;
entries missing both title and link are dropped, order is preserved. -/
def parseFeed : Option (List RawEntry) → Except String (List RawEntry)
  | none => Except.error "ParseError: payload is not a recognizable feed"
  | some rs => Except.ok (rs.filter structurallyValid)

/-- Modelled from the spec: the environment of one refresh attempt — the
clock, the Feed Fetcher outcome (NetworkError or a payload handed to the
parser), whether the storage layer accepts the atomic write, and the
Avatar Resolver outcome (none on any failure, which is swallowed). -/
structure RefreshEnv where
  now : Nat
  fetched : Except String (Option (List RawEntry))
  storageOk : Bool
  avatar : Option String

/-- Fetch then parse: a NetworkError propagates verbatim, otherwise the
payload is parsed (§4.1 steps 3 and 4). -/
def fetchParse (env : RefreshEnv) : Except String (List RawEntry) :=
  match env.fetched with
  | Except.error msg => Except.error msg
  | Except.ok payload => parseFeed payload

/-- Modelled from the spec: the dedup key pair of a parsed entry — its guid
and its computed content hash (§4.5, §9). -/
def rawKey (r : RawEntry) : Option String × Nat :=
  (r.guid, contentHash (r.title.getD "") (r.body.getD ""))

/-- Guid comparison used by the Deduplicator: a match only when both guids
are present and equal (§4.5). -/
def guidMatches : Option String → Option String → Bool
  | some a, some b => a == b
  | _, _ => false

/-- Modelled from the spec: the Deduplicator's duplicate test — the entry's
guid matches a stored guid (when both are present), or its computed
content hash matches a stored hash (§4.5). -/
def isDuplicate (existing : List (Option String × Nat)) (r : RawEntry) : Bool :=
  existing.any (fun p => guidMatches r.guid p.1 || (rawKey r).2 == p.2)

/-- Modelled from the spec: the Deduplicator (§4.5) — given the source's
existing (guid, content_hash) pairs and a batch of freshly parsed entries,
return the subset that is genuinely new, preserving feed order. -/
def deduplicate (existing : List (Option String × Nat)) (batch : List RawEntry) :
    List RawEntry :=
  batch.filter (fun r => !(isDuplicate existing r))

/-- The (guid, content_hash) pairs already stored for a source. -/
def storedKeys (st : EngineState) (sid : Nat) : List (Option String × Nat) :=
  (st.entries.filter (fun e => e.source_id == sid)).map (fun e => (e.guid, e.content_hash))

/-- Number of stored entries belonging to a source. -/
def entryCountFor (st : EngineState) (sid : Nat) : Nat :=
  (st.entries.filter (fun e => e.source_id == sid)).length

/-- Modelled from the spec: the stored Entry built from a parsed record —
engine-assigned `fetched_at`, both dedup keys recorded (§3, §9). -/
def mkEntry (env : RefreshEnv) (sid : Nat) (r : RawEntry) : Entry :=
  { source_id := sid
    guid := r.guid
    content_hash := contentHash (r.title.getD "") (r.body.getD "")
    title := r.title.getD ""
    summary := r.summary
    body := r.body
    link := r.link
    author := r.author
    published_at := r.published_at
    fetched_at := env.now }

/-- Look a source up by id in the Source Store. -/
def findSource (st : EngineState) (sid : Nat) : Option Source :=
  st.sources.find? (fun s => s.id == sid)

/-- The `last_synced_at` of the source with the given id, when present. -/
def lastSyncOf (st : EngineState) (sid : Nat) : Option (Option Nat) :=
  (findSource st sid).map (fun s => s.last_synced_at)

/-- Modelled from the spec: the fresh `running` FetchLog row inserted at
the start of a refresh attempt (§4.1 step 2). -/
def runningLog (env : RefreshEnv) (sid logId : Nat) : FetchLog :=
  { id := logId
    source_id := sid
    status := FetchStatus.running
    started_at := env.now
    finished_at := none
    error_message := none
    entries_fetched := 0 }

/-- Acquire the exclusive per-source refresh lock (§4.1 step 1). -/
def acquireS (sid : Nat) (st : EngineState) : EngineState :=
  { st with locks := sid :: st.locks }

/-- Release the per-source refresh lock (§4.1 step 8). -/
def releaseS (sid : Nat) (st : EngineState) : EngineState :=
  { st with locks := st.locks.erase sid }

/-- Insert the `running` FetchLog row for a new attempt (§4.1 step 2). -/
def insertLogS (env : RefreshEnv) (sid : Nat) (st : EngineState) : EngineState :=
  { st with
    fetchLogs := st.fetchLogs ++ [runningLog env sid st.nextLogId]
    nextLogId := st.nextLogId + 1 }

/-- Whether the attempt succeeds: fetch and parse succeeded and the storage
layer accepted the atomic write (§4.1, §7). -/
def attemptOk (env : RefreshEnv) : Bool :=
  (match fetchParse env with
   | Except.ok _ => true
   | Except.error _ => false) && env.storageOk

/-- The error recorded in the FetchLog: the NetworkError or ParseError
message verbatim, or StorageError when the atomic write was rejected (§7). -/
def attemptError (env : RefreshEnv) : Option String :=
  match fetchParse env with
  | Except.error msg => some msg
  | Except.ok _ => if env.storageOk then none else some "StorageError"

/-- Count of newly inserted entries for the attempt: the deduplicated
subset's size on success, zero on any failure (§3 `entries_fetched`). -/
def newCount (env : RefreshEnv) (sid : Nat) (st : EngineState) : Nat :=
  match fetchParse env with
  | Except.error _ => 0
  | Except.ok parsed =>
      if env.storageOk then (deduplicate (storedKeys st sid) parsed).length else 0

/-- The per-source timestamp update of the atomic commit: set
`last_synced_at = now` on the source with the given id. -/
def syncStamp (sid now : Nat) (s : Source) : Source :=
  if s.id == sid then { s with last_synced_at := some now } else s

/-- The avatar write of §4.1 step 7: fill in a discovered avatar on the
source with the given id when it currently lacks one. -/
def avatarStamp (sid : Nat) (url : String) (s : Source) : Source :=
  if s.id == sid && s.avatar_url == none then { s with avatar_url := some url } else s

/-- Modelled from the spec: the atomic unit of §4.1 step 6 — persist the
genuinely new entries and update `last_synced_at = now` on the Source in
one all-or-nothing write; a StorageError (or an earlier fetch/parse
failure) commits nothing. -/
def commitS (env : RefreshEnv) (sid : Nat) (st : EngineState) : EngineState :=
  match fetchParse env with
  | Except.error _ => st
  | Except.ok parsed =>
      if env.storageOk then
        { st with
          entries :=
            st.entries ++ (deduplicate (storedKeys st sid) parsed).map (mkEntry env sid)
          sources := st.sources.map (syncStamp sid env.now) }
      else st

/-- Modelled from the spec: §4.1 step 7 — on the success path only, when
the Source currently lacks an avatar, a discovered avatar is written to it;
resolver failure (avatar = none) is swallowed and never fails the attempt. -/
def resolveS (env : RefreshEnv) (sid : Nat) (st : EngineState) : EngineState :=
  if attemptOk env then
    match env.avatar with
    | some url => { st with sources := st.sources.map (avatarStamp sid url) }
    | none => st
  else st

/-- The finalizing update applied to one FetchLog row: the attempt's own
row receives its terminal status, finish time, error and count; every
other row is left untouched. -/
def patchLog (env : RefreshEnv) (logId n : Nat) (l : FetchLog) : FetchLog :=
  if l.id == logId then
    { l with
      status := if attemptOk env then FetchStatus.success else FetchStatus.failed
      finished_at := some env.now
      error_message := attemptError env
      entries_fetched := n }
  else l

/-- Modelled from the spec: finalize the attempt's FetchLog row exactly
once to a terminal status, recording `finished_at`, the error message and
`entries_fetched` (§4.1 steps 3 and 8, §3). -/
def finalizeS (env : RefreshEnv) (logId n : Nat) (st : EngineState) : EngineState :=
  { st with fetchLogs := st.fetchLogs.map (patchLog env logId n) }

/-- The finalized FetchLog value returned by the coordinator. -/
def attemptLog (env : RefreshEnv) (sid logId n : Nat) : FetchLog :=
  { id := logId
    source_id := sid
    status := if attemptOk env then FetchStatus.success else FetchStatus.failed
    started_at := env.now
    finished_at := some env.now
    error_message := attemptError env
    entries_fetched := n }

/-- Modelled from the spec: the Refresh Coordinator (§4.1).  If the
per-source lock is already held the call returns immediately without
creating an attempt; otherwise it acquires the lock, inserts a `running`
FetchLog, fetches and parses, deduplicates, commits entries and timestamp
atomically, best-effort resolves the avatar, finalizes the FetchLog to a
terminal status, releases the lock and returns the FetchLog. -/
def refresh (env : RefreshEnv) (sid : Nat) (st : EngineState) :
    EngineState × Option FetchLog :=
  if st.locks.contains sid then (st, none)
  else
    let st1 := insertLogS env sid (acquireS sid st)
    let st2 := commitS env sid st1
    let st3 := resolveS env sid st2
    let n := newCount env sid st1
    (releaseS sid (finalizeS env st.nextLogId n st3),
     some (attemptLog env sid st.nextLogId n))

/-- State wellformedness: every stored FetchLog id is below the fresh-id
counter, so a finalize touches only the attempt's own row. -/
def wfLogs (st : EngineState) : Prop :=
  ∀ l ∈ st.fetchLogs, l.id < st.nextLogId

/-- Modelled from the spec: the service-layer `refresh_source` boundary
operation (§6) — it triggers §4.1 synchronously and returns the (possibly
updated) Source paired with the attempt's FetchLog
(`SourceRefreshResponse` in src/client/lib/types: source, fetch_log). -/
def refresh_source (env : RefreshEnv) (sid : Nat) (st : EngineState) :
    EngineState × Option (Source × FetchLog) :=
  match refresh env sid st with
  | (st2, some lg) =>
      match findSource st2 sid with
      | some s => (st2, some (s, lg))
      | none => (st2, none)
  | (st2, none) => (st2, none)

/-- Whether the owning source of an entry is active. -/
def isActiveSource (st : EngineState) (sid : Nat) : Bool :=
  match findSource st sid with
  | some s => s.is_active
  | none => false

/-- The stored entries that belong to an active source. -/
def activeEntries (st : EngineState) : List Entry :=
  st.entries.filter (fun e => isActiveSource st e.source_id)

/-- Insert an entry into a list already ordered by decreasing
`fetched_at`. -/
def insertDesc (e : Entry) : List Entry → List Entry
  | [] => [e]
  | x :: xs => if x.fetched_at ≤ e.fetched_at then e :: x :: xs else x :: insertDesc e xs

/-- Sort entries by decreasing `fetched_at` (most recently fetched first). -/
def sortDesc : List Entry → List Entry
  | [] => []
  | e :: es => insertDesc e (sortDesc es)

/-- Modelled from the spec: the service-layer `get_feed_snapshot` boundary
operation (§6) — sources plus the most recently fetched entries across all
active sources, capped at `limit`. -/
def get_feed_snapshot (st : EngineState) (limit : Nat) : List Source × List Entry :=
  (st.sources, (sortDesc (activeEntries st)).take limit)

/-- The client wrapper fetchFeedSnapshot (src/client/lib/rss.ts): its
`limit` parameter defaults to 50 when the caller does not supply one, and
it requests the snapshot with that limit. -/
def fetchFeedSnapshot (st : EngineState) (limit : Option Nat) : List Source × List Entry :=
  get_feed_snapshot st (limit.getD 50)

/-- Scheduler dueness as documented in the repository module doc
(src/unnamed/part_000, data-flow item 5 and business-logic item 5): the
background scheduler periodically checks every source's `last_synced_at`
and triggers a pull when the GLOBALLY configured sync interval has
elapsed; a never-synced active source is due.  Only active sources are
dispatched (`is_active` gates scheduling, §3). -/
def dueSources (globalInterval now : Nat) (sources : List Source) : List Source :=
  sources.filter (fun s =>
    s.is_active &&
      (match s.last_synced_at with
       | none => true
       | some t => globalInterval ≤ now - t))

/-- Scheduler dueness as the specification words it (§4.2): active sources
whose `last_synced_at` is null or whose elapsed time reaches the source's
own per-source `sync_interval_minutes`.  Kept for comparison with
`dueSources`, which follows the repository module doc. -/
def dueSourcesSpec (now : Nat) (sources : List Source) : List Source :=
  sources.filter (fun s =>
    s.is_active &&
      (match s.last_synced_at with
       | none => true
       | some t => s.sync_interval_minutes ≤ now - t))

/-- A user profile as declared in src/client/lib/types
(`UserProfile`). -/
structure UserProfile where
  id : Nat
  username : String
  email : String
  name : Option String
  role : String
  status : String
deriving DecidableEq

/-- What the admin layout route renders: a client-side redirect, or the
nested admin outlet, which App.tsx routes to the RSS management page. -/
inductive RenderedPage where
  | redirectTo (path : String)
  | rssManagement
deriving DecidableEq

/-- The AdminLayout guard condition, embedded from the component: true
exactly when `!user || user.role !== 'admin'`. -/
def adminGuardFails (user : Option UserProfile) : Bool :=
  match user with
  | none => true
  | some u => u.role != "admin"

/-- The AdminLayout component's rendering, embedded from the source: when
the guard fails it returns `<Navigate to="/" replace />`, otherwise it
renders the layout whose Outlet App.tsx resolves to RssManagementPage
under /admin/rss. -/
def adminLayout (user : Option UserProfile) : RenderedPage :=
  if adminGuardFails user then RenderedPage.redirectTo "/" else RenderedPage.rssManagement

/-!
Interleaving model of two concurrent refresh invocations for the same
source (§5).  Each invocation is broken at the points where it touches the
shared stores or the lock table: lock test-and-set, FetchLog insert, the
(shared-state-silent) fetch and parse, the atomic entry/timestamp commit,
the avatar write, the FetchLog finalize, and the lock release.  A
scheduler word (List Bool) chooses which invocation performs its next
atomic action.
-/

/-- Program counter of one refresh invocation in the interleaving model.
Each phase names the next atomic action the invocation will perform. -/
inductive ThreadPhase where
  | ready
  | inserting
  | working
  | committing
  | resolving
  | finalizing
  | releasing
  | doneNone
  | doneLog
deriving DecidableEq

/-- Local state of one refresh invocation: its program counter, the id of
its FetchLog row (valid once inserted) and the new-entry count it observed
at commit time (valid once committed). -/
structure Thread where
  phase : ThreadPhase
  logId : Nat
  nfetched : Nat
deriving DecidableEq

/-- A configuration of the two-invocation system: the shared engine state
and the two invocations' local states. -/
structure Config where
  shared : EngineState
  ta : Thread
  tb : Thread
deriving DecidableEq

/-- One atomic action of a refresh invocation, mirroring §4.1: test the
per-source lock (returning immediately when held), insert the running
FetchLog, fetch and parse (no shared write), perform the atomic commit,
write the avatar, finalize the FetchLog, release the lock. -/
def stepThread (env : RefreshEnv) (sid : Nat) (sh : EngineState) (t : Thread) :
    EngineState × Thread :=
  match t.phase with
  | ThreadPhase.ready =>
      if sh.locks.contains sid then (sh, { t with phase := ThreadPhase.doneNone })
      else (acquireS sid sh, { t with phase := ThreadPhase.inserting })
  | ThreadPhase.inserting =>
      (insertLogS env sid sh, { t with phase := ThreadPhase.working, logId := sh.nextLogId })
  | ThreadPhase.working =>
      (sh, { t with phase := ThreadPhase.committing })
  | ThreadPhase.committing =>
      (commitS env sid sh, { t with phase := ThreadPhase.resolving, nfetched := newCount env sid sh })
  | ThreadPhase.resolving =>
      (resolveS env sid sh, { t with phase := ThreadPhase.finalizing })
  | ThreadPhase.finalizing =>
      (finalizeS env t.logId t.nfetched sh, { t with phase := ThreadPhase.releasing })
  | ThreadPhase.releasing =>
      (releaseS sid sh, { t with phase := ThreadPhase.doneLog })
  | ThreadPhase.doneNone => (sh, t)
  | ThreadPhase.doneLog => (sh, t)

/-- One step of the two-invocation system: `true` steps invocation A,
`false` steps invocation B. -/
def step (sid : Nat) (envA envB : RefreshEnv) (c : Config) (who : Bool) : Config :=
  if who then
    let p := stepThread envA sid c.shared c.ta
    { c with shared := p.1, ta := p.2 }
  else
    let p := stepThread envB sid c.shared c.tb
    { c with shared := p.1, tb := p.2 }

/-- Run the two-invocation system under a scheduler word. -/
def run (sid : Nat) (envA envB : RefreshEnv) (c : Config) : List Bool → Config
  | [] => c
  | w :: ws => run sid envA envB (step sid envA envB c w) ws

/-- A refresh invocation that has not started yet. -/
def initThread : Thread :=
  { phase := ThreadPhase.ready, logId := 0, nfetched := 0 }

/-- Initial configuration: shared state `st`, both invocations ready. -/
def initConfig (st : EngineState) : Config :=
  { shared := st, ta := initThread, tb := initThread }

/-- Whether a phase lies inside the lock-protected writing section. -/
def inCrit : ThreadPhase → Bool
  | ThreadPhase.inserting => true
  | ThreadPhase.working => true
  | ThreadPhase.committing => true
  | ThreadPhase.resolving => true
  | ThreadPhase.finalizing => true
  | ThreadPhase.releasing => true
  | _ => false

/-- Position of a phase along the attempt's control flow. -/
def phaseRank : ThreadPhase → Nat
  | ThreadPhase.ready => 0
  | ThreadPhase.inserting => 1
  | ThreadPhase.working => 2
  | ThreadPhase.committing => 3
  | ThreadPhase.resolving => 4
  | ThreadPhase.finalizing => 5
  | ThreadPhase.releasing => 6
  | ThreadPhase.doneLog => 7
  | ThreadPhase.doneNone => 8

/-- The shared state reached when a sole uninterfered attempt over base
state `st` has arrived at the given phase (actions of earlier phases
performed, that phase's own action still pending). -/
def phaseState (env : RefreshEnv) (sid : Nat) (st : EngineState) : ThreadPhase → EngineState
  | ThreadPhase.ready => st
  | ThreadPhase.doneNone => st
  | ThreadPhase.inserting => acquireS sid st
  | ThreadPhase.working => insertLogS env sid (acquireS sid st)
  | ThreadPhase.committing => insertLogS env sid (acquireS sid st)
  | ThreadPhase.resolving => commitS env sid (insertLogS env sid (acquireS sid st))
  | ThreadPhase.finalizing =>
      resolveS env sid (commitS env sid (insertLogS env sid (acquireS sid st)))
  | ThreadPhase.releasing =>
      finalizeS env st.nextLogId (newCount env sid (insertLogS env sid (acquireS sid st)))
        (resolveS env sid (commitS env sid (insertLogS env sid (acquireS sid st))))
  | ThreadPhase.doneLog =>
      releaseS sid
        (finalizeS env st.nextLogId (newCount env sid (insertLogS env sid (acquireS sid st)))
          (resolveS env sid (commitS env sid (insertLogS env sid (acquireS sid st)))))

/-- Consistency of a running or completed attempt with the shared state:
the shared state is exactly the phase state of its progress over its base
state, and its recorded FetchLog id and commit count agree with that base. -/
def winnerAt (env : RefreshEnv) (sid : Nat) (base : EngineState) (t : Thread)
    (sh : EngineState) : Prop :=
  sh = phaseState env sid base t.phase ∧
  (inCrit t.phase = true ∨ t.phase = ThreadPhase.doneLog) ∧
  (2 ≤ phaseRank t.phase → t.logId = base.nextLogId) ∧
  (4 ≤ phaseRank t.phase →
    t.nfetched = newCount env sid (insertLogS env sid (acquireS sid base)))

/-- Invariant of the two-invocation system over base state `st0`: either
nobody has started, or one invocation is the first attempt (the other
still ready, or bounced off the held lock), or the first attempt has
completed and the other invocation is running a second, serialized
attempt. -/
def Inv (sid : Nat) (envA envB : RefreshEnv) (st0 : EngineState) (c : Config) : Prop :=
  (c.ta.phase = ThreadPhase.ready ∧ c.tb.phase = ThreadPhase.ready ∧ c.shared = st0)
  ∨ (winnerAt envA sid st0 c.ta c.shared ∧
      (c.tb.phase = ThreadPhase.ready ∨ c.tb.phase = ThreadPhase.doneNone))
  ∨ (winnerAt envB sid st0 c.tb c.shared ∧
      (c.ta.phase = ThreadPhase.ready ∨ c.ta.phase = ThreadPhase.doneNone))
  ∨ (c.ta.phase = ThreadPhase.doneLog ∧
      winnerAt envB sid (phaseState envA sid st0 ThreadPhase.doneLog) c.tb c.shared)
  ∨ (c.tb.phase = ThreadPhase.doneLog ∧
      winnerAt envA sid (phaseState envB sid st0 ThreadPhase.doneLog) c.ta c.shared)

/-- Concrete source used to evaluate the theorems: active, per-source
cadence of 60 minutes, last synced at minute 0. -/
def srcW : Source :=
  { id := 1
    feed_url := "https://example.com/feed.xml"
    homepage_url := some "https://example.com"
    avatar_url := none
    description := none
    language := none
    category := none
    is_active := true
    sync_interval_minutes := 60
    last_synced_at := some 0 }

/-- Concrete stored entry whose guid is `abc123`. -/
def entW : Entry :=
  { source_id := 1
    guid := some "abc123"
    content_hash := 999
    title := "Old article"
    summary := none
    body := none
    link := none
    author := none
    published_at := none
    fetched_at := 10 }

/-- Concrete raw entry that duplicates `entW` by guid. -/
def rawDup : RawEntry :=
  { guid := some "abc123"
    title := some "Old article updated"
    summary := none
    body := some "changed body"
    link := none
    author := none
    published_at := none }

/-- Concrete raw entry that is genuinely new. -/
def rawNew : RawEntry :=
  { guid := some "g2"
    title := some "Fresh article"
    summary := none
    body := some "fresh body"
    link := some "https://example.com/p2"
    author := none
    published_at := none }

/-- Concrete engine state with one source, one stored entry, no logs. -/
def stW : EngineState :=
  { sources := [srcW]
    entries := [entW]
    fetchLogs := []
    locks := []
    nextLogId := 0 }

/-- Concrete refresh environment: fetch and storage succeed. -/
def envOkW : RefreshEnv :=
  { now := 100
    fetched := Except.ok (some [rawDup, rawNew])
    storageOk := true
    avatar := none }

/-- Concrete refresh environment: storage rejects the atomic write. -/
def envFailW : RefreshEnv :=
  { now := 100
    fetched := Except.ok (some [rawDup, rawNew])
    storageOk := false
    avatar := none }

/-- Concrete refresh environment for a second refresh of the same payload. -/
def envOkW2 : RefreshEnv :=
  { now := 200
    fetched := Except.ok (some [rawDup, rawNew])
    storageOk := true
    avatar := none }

/-- Concrete source for the scheduler comparison: active, per-source
cadence of 60 minutes, last synced at minute 0. -/
def cexSource : Source :=
  { id := 2
    feed_url := "https://example.org/feed.xml"
    homepage_url := none
    avatar_url := none
    description := none
    language := none
    category := none
    is_active := true
    sync_interval_minutes := 60
    last_synced_at := some 0 }

end BestInfoU

namespace BestInfoU

/-! Helper lemmas. -/

theorem length_filter_not_add (p : α → Bool) (l : List α) :
    (l.filter (fun a => !(p a))).length + (l.filter p).length = l.length := by
  induction l with
  | nil => rfl
  | cons a t ih =>
      cases h : p a <;> simp [List.filter_cons, h] <;> omega

theorem mem_insertDesc {x e : Entry} {l : List Entry} :
    x ∈ insertDesc e l ↔ x = e ∨ x ∈ l := by
  induction l with
  | nil => simp [insertDesc]
  | cons a t ih =>
      by_cases h : a.fetched_at ≤ e.fetched_at
      · simp [insertDesc, h]
      · simp [insertDesc, h, ih]
        tauto

theorem sorted_insertDesc {e : Entry} {l : List Entry}
    (h : List.Pairwise (fun a b => b.fetched_at ≤ a.fetched_at) l) :
    List.Pairwise (fun a b => b.fetched_at ≤ a.fetched_at) (insertDesc e l) := by
  induction l with
  | nil => simp [insertDesc]
  | cons a t ih =>
      have ha := (List.pairwise_cons.mp h).1
      have ht := (List.pairwise_cons.mp h).2
      by_cases hle : a.fetched_at ≤ e.fetched_at
      · rw [insertDesc, if_pos hle]
        refine List.pairwise_cons.mpr ⟨?_, List.pairwise_cons.mpr ⟨ha, ht⟩⟩
        intro b hb
        rcases List.mem_cons.mp hb with hb | hb
        · subst hb
          exact hle
        · exact le_trans (ha b hb) hle
      · rw [insertDesc, if_neg hle]
        refine List.pairwise_cons.mpr ⟨?_, ih ht⟩
        intro b hb
        rcases mem_insertDesc.mp hb with hb | hb
        · subst hb
          exact le_of_not_le hle
        · exact ha b hb

theorem sorted_sortDesc (l : List Entry) :
    List.Pairwise (fun a b => b.fetched_at ≤ a.fetched_at) (sortDesc l) := by
  induction l with
  | nil => exact List.Pairwise.nil
  | cons a t ih => exact sorted_insertDesc ih

theorem perm_insertDesc (e : Entry) (l : List Entry) :
    List.Perm (insertDesc e l) (e :: l) := by
  induction l with
  | nil => simp [insertDesc]
  | cons a t ih =>
      by_cases h : a.fetched_at ≤ e.fetched_at
      · simp [insertDesc, h]
      · simp only [insertDesc, h, if_false]
        exact List.Perm.trans (List.Perm.cons a ih) (List.Perm.swap e a t)

theorem perm_sortDesc (l : List Entry) : List.Perm (sortDesc l) l := by
  induction l with
  | nil => exact List.Perm.refl []
  | cons a t ih =>
      exact List.Perm.trans (perm_insertDesc a (sortDesc t)) (List.Perm.cons a ih)

/-! Decomposition lemmas for the refresh coordinator. -/

theorem attemptOk_ok {env : RefreshEnv} (h : attemptOk env = true) :
    ∃ parsed, fetchParse env = Except.ok parsed ∧ env.storageOk = true := by
  unfold attemptOk at h
  cases hfp : fetchParse env with
  | error m =>
      rw [hfp] at h
      simp at h
  | ok parsed =>
      rw [hfp] at h
      simp at h
      exact ⟨parsed, rfl, h⟩

theorem commitS_fail (env : RefreshEnv) (sid : Nat) (st : EngineState)
    (h : attemptOk env = false) : commitS env sid st = st := by
  unfold commitS
  cases hfp : fetchParse env with
  | error m => rfl
  | ok parsed =>
      have hs : env.storageOk = false := by
        unfold attemptOk at h
        rw [hfp] at h
        simpa using h
      simp [hs]

theorem commitS_ok (env : RefreshEnv) (sid : Nat) (st : EngineState)
    (parsed : List RawEntry) (hfp : fetchParse env = Except.ok parsed)
    (hs : env.storageOk = true) :
    commitS env sid st =
      { st with
        entries :=
          st.entries ++ (deduplicate (storedKeys st sid) parsed).map (mkEntry env sid)
        sources := st.sources.map (syncStamp sid env.now) } := by
  unfold commitS
  rw [hfp]
  simp [hs]

theorem resolveS_fail (env : RefreshEnv) (sid : Nat) (st : EngineState)
    (h : attemptOk env = false) : resolveS env sid st = st := by
  simp [resolveS, h]

theorem resolveS_ok_none (env : RefreshEnv) (sid : Nat) (st : EngineState)
    (ha : env.avatar = none) : resolveS env sid st = st := by
  unfold resolveS
  rw [ha]
  split <;> rfl

theorem resolveS_ok_some (env : RefreshEnv) (sid : Nat) (st : EngineState)
    (url : String) (h : attemptOk env = true) (ha : env.avatar = some url) :
    resolveS env sid st = { st with sources := st.sources.map (avatarStamp sid url) } := by
  simp [resolveS, h, ha]

theorem commitS_locks (env : RefreshEnv) (sid : Nat) (st : EngineState) :
    (commitS env sid st).locks = st.locks := by
  unfold commitS
  split
  · rfl
  · split <;> rfl

theorem commitS_fetchLogs (env : RefreshEnv) (sid : Nat) (st : EngineState) :
    (commitS env sid st).fetchLogs = st.fetchLogs := by
  unfold commitS
  split
  · rfl
  · split <;> rfl

theorem commitS_nextLogId (env : RefreshEnv) (sid : Nat) (st : EngineState) :
    (commitS env sid st).nextLogId = st.nextLogId := by
  unfold commitS
  split
  · rfl
  · split <;> rfl

theorem resolveS_locks (env : RefreshEnv) (sid : Nat) (st : EngineState) :
    (resolveS env sid st).locks = st.locks := by
  unfold resolveS
  split
  · cases env.avatar <;> rfl
  · rfl

theorem resolveS_entries (env : RefreshEnv) (sid : Nat) (st : EngineState) :
    (resolveS env sid st).entries = st.entries := by
  unfold resolveS
  split
  · cases env.avatar <;> rfl
  · rfl

theorem resolveS_fetchLogs (env : RefreshEnv) (sid : Nat) (st : EngineState) :
    (resolveS env sid st).fetchLogs = st.fetchLogs := by
  unfold resolveS
  split
  · cases env.avatar <;> rfl
  · rfl

theorem resolveS_nextLogId (env : RefreshEnv) (sid : Nat) (st : EngineState) :
    (resolveS env sid st).nextLogId = st.nextLogId := by
  unfold resolveS
  split
  · cases env.avatar <;> rfl
  · rfl

theorem refresh_state_eq (env : RefreshEnv) (sid : Nat) (st : EngineState)
    (hl : st.locks.contains sid = false) :
    refresh env sid st =
      (releaseS sid
        (finalizeS env st.nextLogId (newCount env sid st)
          (resolveS env sid (commitS env sid (insertLogS env sid (acquireS sid st))))),
       some (attemptLog env sid st.nextLogId (newCount env sid st))) := by
  unfold refresh
  rw [hl]
  rfl

theorem refresh_locked (env : RefreshEnv) (sid : Nat) (st : EngineState)
    (hl : st.locks.contains sid = true) :
    refresh env sid st = (st, none) := by
  unfold refresh
  rw [hl]
  rfl

theorem refresh_locks (env : RefreshEnv) (sid : Nat) (st : EngineState)
    (hl : st.locks.contains sid = false) :
    (refresh env sid st).1.locks = st.locks := by
  rw [refresh_state_eq env sid st hl]
  show ((resolveS env sid (commitS env sid (insertLogS env sid (acquireS sid st)))).locks).erase sid
    = st.locks
  rw [resolveS_locks, commitS_locks]
  show (sid :: st.locks).erase sid = st.locks
  exact List.erase_cons_head sid st.locks

theorem refresh_nextLogId (env : RefreshEnv) (sid : Nat) (st : EngineState)
    (hl : st.locks.contains sid = false) :
    (refresh env sid st).1.nextLogId = st.nextLogId + 1 := by
  rw [refresh_state_eq env sid st hl]
  show (resolveS env sid (commitS env sid (insertLogS env sid (acquireS sid st)))).nextLogId
    = st.nextLogId + 1
  rw [resolveS_nextLogId, commitS_nextLogId]
  rfl

theorem refresh_entries_ok (env : RefreshEnv) (sid : Nat) (st : EngineState)
    (parsed : List RawEntry) (hl : st.locks.contains sid = false)
    (hfp : fetchParse env = Except.ok parsed) (hs : env.storageOk = true) :
    (refresh env sid st).1.entries
      = st.entries ++ (deduplicate (storedKeys st sid) parsed).map (mkEntry env sid) := by
  rw [refresh_state_eq env sid st hl]
  show (resolveS env sid (commitS env sid (insertLogS env sid (acquireS sid st)))).entries = _
  rw [resolveS_entries, commitS_ok env sid _ parsed hfp hs]
  rfl

theorem refresh_entries_fail (env : RefreshEnv) (sid : Nat) (st : EngineState)
    (hl : st.locks.contains sid = false) (hbad : attemptOk env = false) :
    (refresh env sid st).1.entries = st.entries := by
  rw [refresh_state_eq env sid st hl, commitS_fail env sid _ hbad, resolveS_fail env sid _ hbad]
  rfl

theorem refresh_sources_fail (env : RefreshEnv) (sid : Nat) (st : EngineState)
    (hl : st.locks.contains sid = false) (hbad : attemptOk env = false) :
    (refresh env sid st).1.sources = st.sources := by
  rw [refresh_state_eq env sid st hl, commitS_fail env sid _ hbad, resolveS_fail env sid _ hbad]
  rfl

theorem patchLog_no_hit (env : RefreshEnv) (logId n : Nat) (logs : List FetchLog)
    (h : ∀ l ∈ logs, l.id < logId) :
    logs.map (patchLog env logId n) = logs := by
  induction logs with
  | nil => rfl
  | cons a t ih =>
      have ha : (a.id == logId) = false := by
        have := h a (by simp)
        simp [Nat.ne_of_lt this]
      have hpa : patchLog env logId n a = a := by
        simp [patchLog, ha]
      rw [List.map_cons, hpa, ih (fun l hl => h l (by simp [hl]))]

theorem patchLog_running (env : RefreshEnv) (sid logId n : Nat) :
    patchLog env logId n (runningLog env sid logId) = attemptLog env sid logId n := by
  simp [patchLog, runningLog, attemptLog]

theorem refresh_fetchLogs (env : RefreshEnv) (sid : Nat) (st : EngineState)
    (hl : st.locks.contains sid = false) (hwf : wfLogs st) :
    (refresh env sid st).1.fetchLogs
      = st.fetchLogs ++ [attemptLog env sid st.nextLogId (newCount env sid st)] := by
  rw [refresh_state_eq env sid st hl]
  show ((resolveS env sid (commitS env sid (insertLogS env sid (acquireS sid st)))).fetchLogs).map
      (patchLog env st.nextLogId (newCount env sid st))
    = _
  rw [resolveS_fetchLogs, commitS_fetchLogs]
  show (st.fetchLogs ++ [runningLog env sid st.nextLogId]).map
      (patchLog env st.nextLogId (newCount env sid st)) = _
  rw [List.map_append, patchLog_no_hit env st.nextLogId _ st.fetchLogs hwf]
  simp [patchLog_running]

theorem refresh_wf (env : RefreshEnv) (sid : Nat) (st : EngineState)
    (hl : st.locks.contains sid = false) (hwf : wfLogs st) :
    wfLogs (refresh env sid st).1 := by
  intro l hmem
  rw [refresh_fetchLogs env sid st hl hwf] at hmem
  rw [refresh_nextLogId env sid st hl]
  rcases List.mem_append.mp hmem with hmem | hmem
  · exact Nat.lt_succ_of_lt (hwf l hmem)
  · simp at hmem
    subst hmem
    exact Nat.lt_succ_self _

theorem find?_map_id_pres (g : Source → Source) (hid : ∀ s, (g s).id = s.id)
    (sid : Nat) (l : List Source) :
    (l.map g).find? (fun s => s.id == sid) = (l.find? (fun s => s.id == sid)).map g := by
  induction l with
  | nil => rfl
  | cons a t ih =>
      cases h : (a.id == sid) with
      | true =>
          rw [List.map_cons, List.find?_cons_of_pos, List.find?_cons_of_pos]
          · rfl
          · exact h
          · show ((g a).id == sid) = true
            rw [hid]
            exact h
      | false =>
          rw [List.map_cons, List.find?_cons_of_neg, List.find?_cons_of_neg, ih]
          · simp [h]
          · show ¬((g a).id == sid) = true
            rw [hid]
            simp [h]

theorem syncStamp_id (sid now : Nat) (s : Source) : (syncStamp sid now s).id = s.id := by
  unfold syncStamp
  split <;> rfl

theorem avatarStamp_id (sid : Nat) (url : String) (s : Source) :
    (avatarStamp sid url s).id = s.id := by
  unfold avatarStamp
  split <;> rfl

theorem avatarStamp_last (sid : Nat) (url : String) (s : Source) :
    (avatarStamp sid url s).last_synced_at = s.last_synced_at := by
  unfold avatarStamp
  split <;> rfl

theorem find?_last_pres (g : Source → Source) (hid : ∀ s, (g s).id = s.id)
    (hlast : ∀ s, (g s).last_synced_at = s.last_synced_at) (sid : Nat) (l : List Source) :
    ((l.map g).find? (fun s => s.id == sid)).map (fun s => s.last_synced_at)
      = (l.find? (fun s => s.id == sid)).map (fun s => s.last_synced_at) := by
  rw [find?_map_id_pres g hid]
  cases l.find? (fun s => s.id == sid) with
  | none => rfl
  | some s0 => simp [hlast]

theorem lastSync_map_syncStamp (sid now : Nat) (l : List Source) :
    ((l.map (syncStamp sid now)).find? (fun s => s.id == sid)).map (fun s => s.last_synced_at)
      = (l.find? (fun s => s.id == sid)).map (fun _ => some now) := by
  rw [find?_map_id_pres (syncStamp sid now) (syncStamp_id sid now)]
  cases hf : l.find? (fun s => s.id == sid) with
  | none => rfl
  | some s0 =>
      have hp := List.find?_some hf
      show some ((syncStamp sid now s0).last_synced_at) = some (some now)
      unfold syncStamp
      rw [if_pos hp]

theorem refresh_sources_shape (env : RefreshEnv) (sid : Nat) (st : EngineState)
    (hl : st.locks.contains sid = false) :
    ∃ gs : Source → Source,
      (refresh env sid st).1.sources = st.sources.map gs ∧ ∀ s, (gs s).id = s.id := by
  rw [refresh_state_eq env sid st hl]
  cases hok : attemptOk env with
  | false =>
      refine ⟨id, ?_, fun s => rfl⟩
      rw [commitS_fail env sid _ hok, resolveS_fail env sid _ hok, List.map_id]
      rfl
  | true =>
      obtain ⟨parsed, hfp, hs⟩ := attemptOk_ok hok
      rw [commitS_ok env sid _ parsed hfp hs]
      cases ha : env.avatar with
      | none =>
          refine ⟨syncStamp sid env.now, ?_, syncStamp_id sid env.now⟩
          rw [resolveS_ok_none env sid _ ha]
          rfl
      | some url =>
          refine ⟨fun s => avatarStamp sid url (syncStamp sid env.now s), ?_, ?_⟩
          · rw [resolveS_ok_some env sid _ url hok ha]
            show (st.sources.map (syncStamp sid env.now)).map (avatarStamp sid url) = _
            rw [List.map_map]
            rfl
          · intro s
            rw [avatarStamp_id, syncStamp_id]

theorem refresh_lastSync_ok (env : RefreshEnv) (sid : Nat) (st : EngineState)
    (hl : st.locks.contains sid = false) (hok : attemptOk env = true) :
    lastSyncOf (refresh env sid st).1 sid
      = (st.sources.find? (fun s => s.id == sid)).map (fun _ => some env.now) := by
  obtain ⟨parsed, hfp, hs⟩ := attemptOk_ok hok
  rw [lastSyncOf, findSource, refresh_state_eq env sid st hl]
  show (((resolveS env sid (commitS env sid (insertLogS env sid (acquireS sid st)))).sources).find?
      (fun s => s.id == sid)).map (fun s => s.last_synced_at) = _
  rw [commitS_ok env sid _ parsed hfp hs]
  cases ha : env.avatar with
  | none =>
      rw [resolveS_ok_none env sid _ ha]
      show (((st.sources.map (syncStamp sid env.now)).find?
          (fun s => s.id == sid)).map (fun s => s.last_synced_at)) = _
      rw [lastSync_map_syncStamp]
  | some url =>
      rw [resolveS_ok_some env sid _ url hok ha]
      show ((((st.sources.map (syncStamp sid env.now)).map (avatarStamp sid url)).find?
          (fun s => s.id == sid)).map (fun s => s.last_synced_at)) = _
      rw [find?_last_pres (avatarStamp sid url) (avatarStamp_id sid url) (avatarStamp_last sid url)]
      rw [lastSync_map_syncStamp]

/-! Claim theorems: admin guard, scheduler, snapshot. -/

/-- Claim C10: for every authentication state in which the user is absent
or the user's role is not admin, the admin layout renders a redirect to
the root path instead of the RSS management content, so the RSS management
page is reachable exactly by users whose role equals admin. -/
theorem admin_layout_guard (u : Option UserProfile) :
    (adminLayout u = RenderedPage.rssManagement ↔ ∃ p, u = some p ∧ p.role = "admin") ∧
    (adminLayout u = RenderedPage.redirectTo "/" ↔ ¬ ∃ p, u = some p ∧ p.role = "admin") := by
  cases u with
  | none => simp [adminLayout, adminGuardFails]
  | some p =>
      by_cases hp : p.role = "admin" <;>
        simp [adminLayout, adminGuardFails, hp]

/-- Claim C6, counterexample: the repository's scheduler checks the
globally configured sync interval, so with a global interval of 30 minutes
it dispatches a source whose own `sync_interval_minutes` is 60 after only
45 minutes, which the claim's per-source reading forbids. -/
theorem scheduler_global_interval_cex :
    45 - 0 < cexSource.sync_interval_minutes ∧
    cexSource.last_synced_at = some 0 ∧
    cexSource.is_active = true ∧
    dueSources 30 45 [cexSource] = [cexSource] ∧
    dueSourcesSpec 45 [cexSource] = [] := by
  decide

/-- Claim C6, amended: on each tick the scheduler selects exactly the
active sources whose `last_synced_at` is null or whose elapsed time
reaches the globally configured sync interval; it never dispatches an
inactive source, and the per-source `sync_interval_minutes` is not
consulted. -/
theorem scheduler_due_iff (g now : Nat) (sources : List Source) (s : Source) :
    s ∈ dueSources g now sources ↔
      s ∈ sources ∧ s.is_active = true ∧
        (s.last_synced_at = none ∨ ∃ t, s.last_synced_at = some t ∧ g ≤ now - t) := by
  constructor
  · intro h
    rcases List.mem_filter.mp h with ⟨hmem, hcond⟩
    refine ⟨hmem, ?_, ?_⟩
    · cases hact : s.is_active
      · rw [hact] at hcond
        simp at hcond
      · rfl
    · cases hl : s.last_synced_at with
      | none => exact Or.inl rfl
      | some t =>
          rw [hl] at hcond
          cases hact : s.is_active
          · rw [hact] at hcond
            simp at hcond
          · rw [hact] at hcond
            simp at hcond
            exact Or.inr ⟨t, rfl, by omega⟩
  · rintro ⟨hmem, hact, hdue⟩
    refine List.mem_filter.mpr ⟨hmem, ?_⟩
    rcases hdue with hl | ⟨t, hl, ht⟩
    · simp [hact, hl]
    · simp [hact, hl]
      omega

/-- Claim C8: the feed snapshot pairs the sources with entries drawn from
the most recently fetched across all active sources, capped at `limit`;
the client supplies 50 when no limit is given. -/
theorem feed_snapshot_spec (st : EngineState) (lim : Nat) :
    (get_feed_snapshot st lim).1 = st.sources ∧
    (get_feed_snapshot st lim).2.length ≤ lim ∧
    (∀ e ∈ (get_feed_snapshot st lim).2,
       e ∈ st.entries ∧ isActiveSource st e.source_id = true) ∧
    List.Pairwise (fun a b => b.fetched_at ≤ a.fetched_at) (get_feed_snapshot st lim).2 ∧
    (∀ a ∈ (get_feed_snapshot st lim).2,
       ∀ b ∈ (sortDesc (activeEntries st)).drop lim, b.fetched_at ≤ a.fetched_at) ∧
    fetchFeedSnapshot st none = get_feed_snapshot st 50 := by
  have hperm := perm_sortDesc (activeEntries st)
  have hsorted := sorted_sortDesc (activeEntries st)
  have hsplit : (get_feed_snapshot st lim).2 = (sortDesc (activeEntries st)).take lim := rfl
  refine ⟨rfl, ?_, ?_, ?_, ?_, rfl⟩
  · rw [hsplit]
    simp [List.length_take]
  · intro e he
    rw [hsplit] at he
    have hmem : e ∈ sortDesc (activeEntries st) := List.mem_of_mem_take he
    have hmem2 : e ∈ activeEntries st := hperm.mem_iff.mp hmem
    rcases List.mem_filter.mp hmem2 with ⟨h1, h2⟩
    exact ⟨h1, h2⟩
  · rw [hsplit]
    exact hsorted.sublist (List.take_sublist lim _)
  · intro a ha b hb
    rw [hsplit] at ha
    have := List.take_append_drop lim (sortDesc (activeEntries st))
    rw [← this] at hsorted
    rcases (List.pairwise_append.mp hsorted) with ⟨_, _, hcross⟩
    exact hcross a ha b hb


/-! Claim theorems: the refresh coordinator. -/

/-- Claim C1: for a feed payload whose structurally valid entries number
N, of which M duplicate a stored entry by guid (when both present) or by
content hash, a refresh increases the source's stored entry count by
exactly N − M, and the resulting FetchLog's `entries_fetched` equals
N − M. -/
theorem refresh_entries_fetched_count (env : RefreshEnv) (sid : Nat) (st : EngineState)
    (raws : List RawEntry)
    (hl : st.locks.contains sid = false)
    (hf : env.fetched = Except.ok (some raws))
    (hs : env.storageOk = true) :
    entryCountFor (refresh env sid st).1 sid
      = entryCountFor st sid
        + ((raws.filter structurallyValid).length
           - ((raws.filter structurallyValid).filter
               (fun r => isDuplicate (storedKeys st sid) r)).length) ∧
    ∃ lg, (refresh env sid st).2 = some lg ∧
      lg.entries_fetched
        = (raws.filter structurallyValid).length
          - ((raws.filter structurallyValid).filter
              (fun r => isDuplicate (storedKeys st sid) r)).length := by
  have hfp : fetchParse env = Except.ok (raws.filter structurallyValid) := by
    unfold fetchParse
    rw [hf]
    rfl
  have hnewlen :
      (deduplicate (storedKeys st sid) (raws.filter structurallyValid)).length
        = (raws.filter structurallyValid).length
          - ((raws.filter structurallyValid).filter
              (fun r => isDuplicate (storedKeys st sid) r)).length := by
    have hsp := length_filter_not_add (fun r => isDuplicate (storedKeys st sid) r)
      (raws.filter structurallyValid)
    unfold deduplicate
    omega
  have hcount : newCount env sid st
      = (deduplicate (storedKeys st sid) (raws.filter structurallyValid)).length := by
    unfold newCount
    rw [hfp]
    simp [hs]
  constructor
  · unfold entryCountFor
    rw [refresh_entries_ok env sid st _ hl hfp hs, List.filter_append, List.length_append]
    have hkeep :
        ((deduplicate (storedKeys st sid) (raws.filter structurallyValid)).map
            (mkEntry env sid)).filter (fun e => e.source_id == sid)
          = (deduplicate (storedKeys st sid) (raws.filter structurallyValid)).map
              (mkEntry env sid) := by
      refine List.filter_eq_self.mpr ?_
      intro e he
      rcases List.mem_map.mp he with ⟨r, hr, rfl⟩
      simp [mkEntry]
    rw [hkeep, List.length_map, hnewlen]
  · refine ⟨attemptLog env sid st.nextLogId (newCount env sid st), ?_, ?_⟩
    · rw [refresh_state_eq env sid st hl]
    · show newCount env sid st = _
      rw [hcount, hnewlen]

/-- Claim C1 witness at a concrete input: one stored entry, a payload of
two valid entries of which one duplicates the stored guid. -/
theorem refresh_entries_fetched_count_witness :
    entryCountFor (refresh envOkW 1 stW).1 1
      = entryCountFor stW 1
        + (([rawDup, rawNew].filter structurallyValid).length
           - (([rawDup, rawNew].filter structurallyValid).filter
               (fun r => isDuplicate (storedKeys stW 1) r)).length) ∧
    ∃ lg, (refresh envOkW 1 stW).2 = some lg ∧
      lg.entries_fetched
        = ([rawDup, rawNew].filter structurallyValid).length
          - (([rawDup, rawNew].filter structurallyValid).filter
              (fun r => isDuplicate (storedKeys stW 1) r)).length :=
  refresh_entries_fetched_count envOkW 1 stW [rawDup, rawNew] (by decide) rfl rfl

/-- Claim C3: the new entries and the `last_synced_at` update commit in
one atomic unit — on success all of them commit, and when the storage
layer rejects the write the attempt aborts with no partial commit and the
error is recorded in the FetchLog. -/
theorem refresh_atomic_commit (env : RefreshEnv) (sid : Nat) (st : EngineState)
    (raws : List RawEntry)
    (hl : st.locks.contains sid = false)
    (hf : env.fetched = Except.ok (some raws)) :
    (env.storageOk = true →
      (refresh env sid st).1.entries
        = st.entries
          ++ (deduplicate (storedKeys st sid) (raws.filter structurallyValid)).map
              (mkEntry env sid) ∧
      lastSyncOf (refresh env sid st).1 sid
        = (st.sources.find? (fun s => s.id == sid)).map (fun _ => some env.now)) ∧
    (env.storageOk = false →
      (refresh env sid st).1.entries = st.entries ∧
      (refresh env sid st).1.sources = st.sources ∧
      ∃ lg, (refresh env sid st).2 = some lg ∧
        lg.status = FetchStatus.failed ∧
        lg.error_message = some "StorageError") := by
  have hfp : fetchParse env = Except.ok (raws.filter structurallyValid) := by
    unfold fetchParse
    rw [hf]
    rfl
  constructor
  · intro hs
    have hok : attemptOk env = true := by
      unfold attemptOk
      rw [hfp]
      simp [hs]
    exact ⟨refresh_entries_ok env sid st _ hl hfp hs, refresh_lastSync_ok env sid st hl hok⟩
  · intro hs
    have hbad : attemptOk env = false := by
      unfold attemptOk
      rw [hfp]
      simp [hs]
    refine ⟨refresh_entries_fail env sid st hl hbad, refresh_sources_fail env sid st hl hbad,
      attemptLog env sid st.nextLogId (newCount env sid st), ?_, ?_, ?_⟩
    · rw [refresh_state_eq env sid st hl]
    · simp [attemptLog, hbad]
    · show attemptError env = some "StorageError"
      unfold attemptError
      rw [hfp]
      simp [hs]

/-- Claim C3 witness at a concrete input: the storage layer rejects the
write, and the state is left untouched with a failed StorageError log. -/
theorem refresh_atomic_commit_witness :
    (envFailW.storageOk = true →
      (refresh envFailW 1 stW).1.entries
        = stW.entries
          ++ (deduplicate (storedKeys stW 1) ([rawDup, rawNew].filter structurallyValid)).map
              (mkEntry envFailW 1) ∧
      lastSyncOf (refresh envFailW 1 stW).1 1
        = (stW.sources.find? (fun s => s.id == 1)).map (fun _ => some envFailW.now)) ∧
    (envFailW.storageOk = false →
      (refresh envFailW 1 stW).1.entries = stW.entries ∧
      (refresh envFailW 1 stW).1.sources = stW.sources ∧
      ∃ lg, (refresh envFailW 1 stW).2 = some lg ∧
        lg.status = FetchStatus.failed ∧
        lg.error_message = some "StorageError") :=
  refresh_atomic_commit envFailW 1 stW [rawDup, rawNew] (by decide) rfl

/-- Claim C4: the source's `last_synced_at` changes if and only if the
attempt's FetchLog status is success; a failed attempt leaves it
unchanged. -/
theorem last_synced_iff_success (env : RefreshEnv) (sid : Nat) (st : EngineState)
    (s0 : Source)
    (hl : st.locks.contains sid = false)
    (hfind : findSource st sid = some s0)
    (hnow : s0.last_synced_at ≠ some env.now) :
    ∃ lg, (refresh env sid st).2 = some lg ∧
      (lastSyncOf (refresh env sid st).1 sid ≠ lastSyncOf st sid ↔
        lg.status = FetchStatus.success) := by
  refine ⟨attemptLog env sid st.nextLogId (newCount env sid st), ?_, ?_⟩
  · rw [refresh_state_eq env sid st hl]
  · cases hok : attemptOk env with
    | true =>
        have hchanged : lastSyncOf (refresh env sid st).1 sid = some (some env.now) := by
          rw [refresh_lastSync_ok env sid st hl hok]
          unfold findSource at hfind
          rw [hfind]
          rfl
        have hold : lastSyncOf st sid = some s0.last_synced_at := by
          unfold lastSyncOf
          rw [hfind]
          rfl
        constructor
        · intro _
          simp [attemptLog, hok]
        · intro _
          rw [hchanged, hold]
          intro hcontra
          exact hnow (Option.some.inj hcontra).symm
    | false =>
        have heq : lastSyncOf (refresh env sid st).1 sid = lastSyncOf st sid := by
          unfold lastSyncOf findSource
          rw [refresh_sources_fail env sid st hl hok]
        constructor
        · intro hne
          exact absurd heq hne
        · intro hsucc
          exfalso
          have hstat : (if attemptOk env = true then FetchStatus.success else FetchStatus.failed)
              = FetchStatus.success := hsucc
          rw [hok] at hstat
          simp at hstat

/-- Claim C4 witness at a concrete input: a successful refresh at minute
100 over a source last synced at minute 0 changes `last_synced_at`. -/
theorem last_synced_iff_success_witness :
    ∃ lg, (refresh envOkW 1 stW).2 = some lg ∧
      (lastSyncOf (refresh envOkW 1 stW).1 1 ≠ lastSyncOf stW 1 ↔
        lg.status = FetchStatus.success) :=
  last_synced_iff_success envOkW 1 stW srcW (by decide) (by decide) (by decide)

/-- Claim C5: every refresh attempt that is created appends exactly one
new FetchLog row, created at the start with status running, finalized
exactly once to a terminal status, and leaves every previously stored
FetchLog row untouched; wellformedness is preserved, so later refreshes
never mutate this attempt's finalized row either. -/
theorem fetchlog_lifecycle (env : RefreshEnv) (sid : Nat) (st : EngineState)
    (hl : st.locks.contains sid = false) (hwf : wfLogs st) :
    (insertLogS env sid (acquireS sid st)).fetchLogs
      = st.fetchLogs ++ [runningLog env sid st.nextLogId] ∧
    (runningLog env sid st.nextLogId).status = FetchStatus.running ∧
    (runningLog env sid st.nextLogId).started_at = env.now ∧
    (refresh env sid st).1.fetchLogs
      = st.fetchLogs ++ [attemptLog env sid st.nextLogId (newCount env sid st)] ∧
    (attemptLog env sid st.nextLogId (newCount env sid st)).id
      = (runningLog env sid st.nextLogId).id ∧
    ((attemptLog env sid st.nextLogId (newCount env sid st)).status = FetchStatus.success ∨
      (attemptLog env sid st.nextLogId (newCount env sid st)).status = FetchStatus.failed) ∧
    wfLogs (refresh env sid st).1 := by
  refine ⟨rfl, rfl, rfl, refresh_fetchLogs env sid st hl hwf, rfl, ?_,
    refresh_wf env sid st hl hwf⟩
  cases hok : attemptOk env
  · right
    simp [attemptLog, hok]
  · left
    simp [attemptLog, hok]

/-- Claim C5 witness at a concrete input. -/
theorem fetchlog_lifecycle_witness :
    (insertLogS envOkW 1 (acquireS 1 stW)).fetchLogs
      = stW.fetchLogs ++ [runningLog envOkW 1 stW.nextLogId] ∧
    (runningLog envOkW 1 stW.nextLogId).status = FetchStatus.running ∧
    (runningLog envOkW 1 stW.nextLogId).started_at = envOkW.now ∧
    (refresh envOkW 1 stW).1.fetchLogs
      = stW.fetchLogs ++ [attemptLog envOkW 1 stW.nextLogId (newCount envOkW 1 stW)] ∧
    (attemptLog envOkW 1 stW.nextLogId (newCount envOkW 1 stW)).id
      = (runningLog envOkW 1 stW.nextLogId).id ∧
    ((attemptLog envOkW 1 stW.nextLogId (newCount envOkW 1 stW)).status = FetchStatus.success ∨
      (attemptLog envOkW 1 stW.nextLogId (newCount envOkW 1 stW)).status = FetchStatus.failed) ∧
    wfLogs (refresh envOkW 1 stW).1 :=
  fetchlog_lifecycle envOkW 1 stW (by decide)
    (by intro l h; exact absurd h (List.not_mem_nil l))

/-- Claim C7: refreshing a source is idempotent with respect to an
unchanged feed payload — a second refresh against the same payload
inserts zero new entries and its FetchLog reports `entries_fetched = 0`. -/
theorem refresh_idempotent (e1 e2 : RefreshEnv) (sid : Nat) (st : EngineState)
    (raws : List RawEntry)
    (hl : st.locks.contains sid = false)
    (hf1 : e1.fetched = Except.ok (some raws)) (hs1 : e1.storageOk = true)
    (hf2 : e2.fetched = Except.ok (some raws)) :
    (refresh e2 sid (refresh e1 sid st).1).1.entries = (refresh e1 sid st).1.entries ∧
    ∃ lg, (refresh e2 sid (refresh e1 sid st).1).2 = some lg ∧ lg.entries_fetched = 0 := by
  have hfp1 : fetchParse e1 = Except.ok (raws.filter structurallyValid) := by
    unfold fetchParse
    rw [hf1]
    rfl
  have hfp2 : fetchParse e2 = Except.ok (raws.filter structurallyValid) := by
    unfold fetchParse
    rw [hf2]
    rfl
  have hl1 : (refresh e1 sid st).1.locks.contains sid = false := by
    rw [refresh_locks e1 sid st hl]
    exact hl
  have hentries1 := refresh_entries_ok e1 sid st _ hl hfp1 hs1
  have hkeys : storedKeys (refresh e1 sid st).1 sid
      = storedKeys st sid
        ++ (deduplicate (storedKeys st sid) (raws.filter structurallyValid)).map rawKey := by
    unfold storedKeys
    rw [hentries1, List.filter_append, List.map_append]
    congr 1
    have hkeep : ((deduplicate (storedKeys st sid) (raws.filter structurallyValid)).map
        (mkEntry e1 sid)).filter (fun e => e.source_id == sid)
        = (deduplicate (storedKeys st sid) (raws.filter structurallyValid)).map
            (mkEntry e1 sid) := by
      refine List.filter_eq_self.mpr ?_
      intro e he
      rcases List.mem_map.mp he with ⟨r, hr, rfl⟩
      simp [mkEntry]
    rw [hkeep, List.map_map]
    rfl
  have halldup : ∀ r ∈ raws.filter structurallyValid,
      isDuplicate (storedKeys (refresh e1 sid st).1 sid) r = true := by
    intro r hr
    rw [hkeys]
    unfold isDuplicate
    rw [List.any_append]
    cases hd : isDuplicate (storedKeys st sid) r with
    | true =>
        unfold isDuplicate at hd
        rw [hd]
        rfl
    | false =>
        have hrnew : r ∈ deduplicate (storedKeys st sid) (raws.filter structurallyValid) := by
          unfold deduplicate
          refine List.mem_filter.mpr ⟨hr, ?_⟩
          rw [hd]
          rfl
        have hself : ((deduplicate (storedKeys st sid)
              (raws.filter structurallyValid)).map rawKey).any
            (fun p => guidMatches r.guid p.1 || (rawKey r).2 == p.2) = true := by
          refine List.any_eq_true.mpr ⟨rawKey r, List.mem_map_of_mem rawKey hrnew, ?_⟩
          simp
        rw [hself]
        simp
  have hdedup0 : deduplicate (storedKeys (refresh e1 sid st).1 sid)
      (raws.filter structurallyValid) = [] := by
    unfold deduplicate
    refine List.filter_eq_nil_iff.mpr ?_
    intro r hr
    rw [halldup r hr]
    simp
  have hcount2 : newCount e2 sid (refresh e1 sid st).1 = 0 := by
    unfold newCount
    rw [hfp2]
    show (if e2.storageOk = true then
        (deduplicate (storedKeys (refresh e1 sid st).1 sid)
          (raws.filter structurallyValid)).length
      else 0) = 0
    rw [hdedup0]
    split <;> rfl
  constructor
  · cases hs2 : e2.storageOk with
    | true =>
        rw [refresh_entries_ok e2 sid _ _ hl1 hfp2 hs2, hdedup0]
        simp
    | false =>
        have hbad : attemptOk e2 = false := by
          unfold attemptOk
          rw [hfp2]
          simp [hs2]
        exact refresh_entries_fail e2 sid _ hl1 hbad
  · refine ⟨attemptLog e2 sid (refresh e1 sid st).1.nextLogId
      (newCount e2 sid (refresh e1 sid st).1), ?_, ?_⟩
    · rw [refresh_state_eq e2 sid _ hl1]
    · show newCount e2 sid (refresh e1 sid st).1 = 0
      exact hcount2

/-- Claim C7 witness at a concrete input: a second refresh over the same
two-entry payload inserts nothing and reports zero. -/
theorem refresh_idempotent_witness :
    (refresh envOkW2 1 (refresh envOkW 1 stW).1).1.entries = (refresh envOkW 1 stW).1.entries ∧
    ∃ lg, (refresh envOkW2 1 (refresh envOkW 1 stW).1).2 = some lg ∧ lg.entries_fetched = 0 :=
  refresh_idempotent envOkW envOkW2 1 stW [rawDup, rawNew] (by decide) rfl rfl rfl

/-- Claim C9: for an existing sourceId, `refresh_source` synchronously
performs one refresh attempt and returns the possibly updated Source
paired with exactly that attempt's FetchLog. -/
theorem refresh_source_pair (env : RefreshEnv) (sid : Nat) (st : EngineState)
    (s0 : Source)
    (hl : st.locks.contains sid = false) (hwf : wfLogs st)
    (hfind : findSource st sid = some s0) :
    ∃ s lg, refresh_source env sid st = ((refresh env sid st).1, some (s, lg)) ∧
      findSource (refresh env sid st).1 sid = some s ∧
      (refresh env sid st).1.fetchLogs = st.fetchLogs ++ [lg] ∧
      lg.source_id = sid := by
  obtain ⟨gs, hshape, hid⟩ := refresh_sources_shape env sid st hl
  have hfind2 : findSource (refresh env sid st).1 sid = some (gs s0) := by
    unfold findSource
    rw [hshape, find?_map_id_pres gs hid]
    unfold findSource at hfind
    rw [hfind]
    rfl
  refine ⟨gs s0, attemptLog env sid st.nextLogId (newCount env sid st), ?_,
    hfind2, refresh_fetchLogs env sid st hl hwf, rfl⟩
  unfold refresh_source
  rw [refresh_state_eq env sid st hl] at hfind2 ⊢
  dsimp only at hfind2 ⊢
  rw [hfind2]

/-- Claim C9 witness at a concrete input. -/
theorem refresh_source_pair_witness :
    ∃ s lg, refresh_source envOkW 1 stW = ((refresh envOkW 1 stW).1, some (s, lg)) ∧
      findSource (refresh envOkW 1 stW).1 1 = some s ∧
      (refresh envOkW 1 stW).1.fetchLogs = stW.fetchLogs ++ [lg] ∧
      lg.source_id = 1 :=
  refresh_source_pair envOkW 1 stW srcW (by decide)
    (by intro l h; exact absurd h (List.not_mem_nil l)) (by decide)


/-! Lemmas for the two-invocation interleaving model. -/

theorem phaseState_locks_crit (env : RefreshEnv) (sid : Nat) (st : EngineState)
    (p : ThreadPhase) (hc : inCrit p = true) :
    (phaseState env sid st p).locks = sid :: st.locks := by
  cases p with
  | ready => simp [inCrit] at hc
  | doneNone => simp [inCrit] at hc
  | doneLog => simp [inCrit] at hc
  | inserting => rfl
  | working => rfl
  | committing => rfl
  | resolving =>
      show (commitS env sid (insertLogS env sid (acquireS sid st))).locks = _
      rw [commitS_locks]
      rfl
  | finalizing =>
      show (resolveS env sid (commitS env sid (insertLogS env sid (acquireS sid st)))).locks = _
      rw [resolveS_locks, commitS_locks]
      rfl
  | releasing =>
      show (resolveS env sid (commitS env sid (insertLogS env sid (acquireS sid st)))).locks = _
      rw [resolveS_locks, commitS_locks]
      rfl

theorem phaseState_doneLog_locks (env : RefreshEnv) (sid : Nat) (st : EngineState) :
    (phaseState env sid st ThreadPhase.doneLog).locks = st.locks := by
  have h : (finalizeS env st.nextLogId (newCount env sid (insertLogS env sid (acquireS sid st)))
      (resolveS env sid (commitS env sid (insertLogS env sid (acquireS sid st))))).locks
      = sid :: st.locks := by
    show (resolveS env sid (commitS env sid (insertLogS env sid (acquireS sid st)))).locks = _
    rw [resolveS_locks, commitS_locks]
    rfl
  show (finalizeS env st.nextLogId (newCount env sid (insertLogS env sid (acquireS sid st)))
      (resolveS env sid (commitS env sid (insertLogS env sid (acquireS sid st))))).locks.erase sid
    = st.locks
  rw [h]
  exact List.erase_cons_head sid st.locks

theorem contains_self_cons (sid : Nat) (l : List Nat) : (sid :: l).contains sid = true := by
  simp

theorem winner_advance (envW : RefreshEnv) (sid : Nat) (base : EngineState)
    (tp : ThreadPhase) (tlog tn : Nat) (sh : EngineState)
    (hw : winnerAt envW sid base ⟨tp, tlog, tn⟩ sh) (hc : inCrit tp = true) :
    winnerAt envW sid base (stepThread envW sid sh ⟨tp, tlog, tn⟩).2
      (stepThread envW sid sh ⟨tp, tlog, tn⟩).1 := by
  obtain ⟨hsh, _, hlog, hn⟩ := hw
  cases tp with
  | ready => simp [inCrit] at hc
  | doneNone => simp [inCrit] at hc
  | doneLog => simp [inCrit] at hc
  | inserting =>
      subst hsh
      refine ⟨rfl, Or.inl rfl, ?_, ?_⟩
      · intro _
        rfl
      · intro h4
        exact absurd h4 (show ¬4 ≤ phaseRank ThreadPhase.working by decide)
  | working =>
      subst hsh
      refine ⟨rfl, Or.inl rfl, ?_, ?_⟩
      · intro _
        exact hlog (show 2 ≤ phaseRank ThreadPhase.working by decide)
      · intro h4
        exact absurd h4 (show ¬4 ≤ phaseRank ThreadPhase.committing by decide)
  | committing =>
      subst hsh
      refine ⟨rfl, Or.inl rfl, ?_, ?_⟩
      · intro _
        exact hlog (show 2 ≤ phaseRank ThreadPhase.committing by decide)
      · intro _
        rfl
  | resolving =>
      subst hsh
      refine ⟨rfl, Or.inl rfl, ?_, ?_⟩
      · intro _
        exact hlog (show 2 ≤ phaseRank ThreadPhase.resolving by decide)
      · intro _
        exact hn (show 4 ≤ phaseRank ThreadPhase.resolving by decide)
  | finalizing =>
      subst hsh
      have h1 : tlog = base.nextLogId :=
        hlog (show 2 ≤ phaseRank ThreadPhase.finalizing by decide)
      have h2 : tn = newCount envW sid (insertLogS envW sid (acquireS sid base)) :=
        hn (show 4 ≤ phaseRank ThreadPhase.finalizing by decide)
      subst h1
      subst h2
      refine ⟨rfl, Or.inl rfl, ?_, ?_⟩
      · intro _
        rfl
      · intro _
        rfl
  | releasing =>
      subst hsh
      refine ⟨rfl, Or.inr rfl, ?_, ?_⟩
      · intro _
        exact hlog (show 2 ≤ phaseRank ThreadPhase.releasing by decide)
      · intro _
        exact hn (show 4 ≤ phaseRank ThreadPhase.releasing by decide)


theorem step_true (sid : Nat) (envA envB : RefreshEnv) (c : Config) :
    step sid envA envB c true
      = { c with
          shared := (stepThread envA sid c.shared c.ta).1
          ta := (stepThread envA sid c.shared c.ta).2 } := rfl

theorem step_false (sid : Nat) (envA envB : RefreshEnv) (c : Config) :
    step sid envA envB c false
      = { c with
          shared := (stepThread envB sid c.shared c.tb).1
          tb := (stepThread envB sid c.shared c.tb).2 } := rfl

theorem inv_step (sid : Nat) (envA envB : RefreshEnv) (st0 : EngineState)
    (hlock0 : st0.locks.contains sid = false)
    (c : Config) (w : Bool)
    (hinv : Inv sid envA envB st0 c) :
    Inv sid envA envB st0 (step sid envA envB c w) := by
  obtain ⟨sh, ⟨tap, talog, tan⟩, ⟨tbp, tbl, tbn⟩⟩ := c
  rcases hinv with ⟨ha, hb, hshared⟩ | ⟨hwA, hB⟩ | ⟨hwB, hA⟩ | ⟨hA, hwB⟩ | ⟨hB, hwA⟩
  · -- nobody started yet
    have ha' : tap = ThreadPhase.ready := ha
    have hb' : tbp = ThreadPhase.ready := hb
    have hs' : sh = st0 := hshared
    subst ha'
    subst hb'
    have hmem0 : sid ∉ sh.locks := by
      rw [hs']
      simpa using hlock0
    cases w with
    | true =>
        have hstep : stepThread envA sid sh ⟨ThreadPhase.ready, talog, tan⟩
            = (acquireS sid sh, ⟨ThreadPhase.inserting, talog, tan⟩) := by
          simp [stepThread, hmem0]
        rw [step_true, hstep]
        refine Or.inr (Or.inl ⟨⟨?_, Or.inl rfl,
          fun h2 => absurd h2 (show ¬2 ≤ phaseRank ThreadPhase.inserting by decide),
          fun h4 => absurd h4 (show ¬4 ≤ phaseRank ThreadPhase.inserting by decide)⟩,
          Or.inl rfl⟩)
        show acquireS sid sh = phaseState envA sid st0 ThreadPhase.inserting
        rw [hs']
        rfl
    | false =>
        have hstep : stepThread envB sid sh ⟨ThreadPhase.ready, tbl, tbn⟩
            = (acquireS sid sh, ⟨ThreadPhase.inserting, tbl, tbn⟩) := by
          simp [stepThread, hmem0]
        rw [step_false, hstep]
        refine Or.inr (Or.inr (Or.inl ⟨⟨?_, Or.inl rfl,
          fun h2 => absurd h2 (show ¬2 ≤ phaseRank ThreadPhase.inserting by decide),
          fun h4 => absurd h4 (show ¬4 ≤ phaseRank ThreadPhase.inserting by decide)⟩,
          Or.inl rfl⟩))
        show acquireS sid sh = phaseState envB sid st0 ThreadPhase.inserting
        rw [hs']
        rfl
  · -- invocation A is the first attempt
    obtain ⟨hsh, hcrit, hlog, hn⟩ := hwA
    have hsh' : sh = phaseState envA sid st0 tap := hsh
    have hB' : tbp = ThreadPhase.ready ∨ tbp = ThreadPhase.doneNone := hB
    cases w with
    | true =>
        rcases hcrit with hc | hd
        · have hadv := winner_advance envA sid st0 tap talog tan sh
            ⟨hsh, Or.inl hc, hlog, hn⟩ hc
          rw [step_true]
          exact Or.inr (Or.inl ⟨hadv, hB'⟩)
        · have hd' : tap = ThreadPhase.doneLog := hd
          subst hd'
          rw [step_true]
          exact Or.inr (Or.inl ⟨⟨hsh, Or.inr rfl, hlog, hn⟩, hB'⟩)
    | false =>
        rcases hB' with hbr | hbd
        · have hbr' : tbp = ThreadPhase.ready := hbr
          subst hbr'
          rcases hcrit with hc | hd
          · have hmem : sid ∈ sh.locks := by
              rw [hsh', phaseState_locks_crit envA sid st0 tap hc]
              exact List.mem_cons_self sid st0.locks
            have hstep : stepThread envB sid sh ⟨ThreadPhase.ready, tbl, tbn⟩
                = (sh, ⟨ThreadPhase.doneNone, tbl, tbn⟩) := by
              simp [stepThread, hmem]
            rw [step_false, hstep]
            exact Or.inr (Or.inl ⟨⟨hsh, Or.inl hc, hlog, hn⟩, Or.inr rfl⟩)
          · have hd' : tap = ThreadPhase.doneLog := hd
            subst hd'
            have hmem : sid ∉ sh.locks := by
              rw [hsh', phaseState_doneLog_locks envA sid st0]
              simpa using hlock0
            have hstep : stepThread envB sid sh ⟨ThreadPhase.ready, tbl, tbn⟩
                = (acquireS sid sh, ⟨ThreadPhase.inserting, tbl, tbn⟩) := by
              simp [stepThread, hmem]
            rw [step_false, hstep]
            refine Or.inr (Or.inr (Or.inr (Or.inl ⟨rfl, ?_⟩)))
            refine ⟨?_, Or.inl rfl,
              fun h2 => absurd h2 (show ¬2 ≤ phaseRank ThreadPhase.inserting by decide),
              fun h4 => absurd h4 (show ¬4 ≤ phaseRank ThreadPhase.inserting by decide)⟩
            show acquireS sid sh
              = phaseState envB sid (phaseState envA sid st0 ThreadPhase.doneLog)
                ThreadPhase.inserting
            rw [hsh']
            rfl
        · have hbd' : tbp = ThreadPhase.doneNone := hbd
          subst hbd'
          rw [step_false]
          exact Or.inr (Or.inl ⟨⟨hsh, hcrit, hlog, hn⟩, Or.inr rfl⟩)
  · -- invocation B is the first attempt
    obtain ⟨hsh, hcrit, hlog, hn⟩ := hwB
    have hsh' : sh = phaseState envB sid st0 tbp := hsh
    have hA' : tap = ThreadPhase.ready ∨ tap = ThreadPhase.doneNone := hA
    cases w with
    | false =>
        rcases hcrit with hc | hd
        · have hadv := winner_advance envB sid st0 tbp tbl tbn sh
            ⟨hsh, Or.inl hc, hlog, hn⟩ hc
          rw [step_false]
          exact Or.inr (Or.inr (Or.inl ⟨hadv, hA'⟩))
        · have hd' : tbp = ThreadPhase.doneLog := hd
          subst hd'
          rw [step_false]
          exact Or.inr (Or.inr (Or.inl ⟨⟨hsh, Or.inr rfl, hlog, hn⟩, hA'⟩))
    | true =>
        rcases hA' with har | had
        · have har' : tap = ThreadPhase.ready := har
          subst har'
          rcases hcrit with hc | hd
          · have hmem : sid ∈ sh.locks := by
              rw [hsh', phaseState_locks_crit envB sid st0 tbp hc]
              exact List.mem_cons_self sid st0.locks
            have hstep : stepThread envA sid sh ⟨ThreadPhase.ready, talog, tan⟩
                = (sh, ⟨ThreadPhase.doneNone, talog, tan⟩) := by
              simp [stepThread, hmem]
            rw [step_true, hstep]
            exact Or.inr (Or.inr (Or.inl ⟨⟨hsh, Or.inl hc, hlog, hn⟩, Or.inr rfl⟩))
          · have hd' : tbp = ThreadPhase.doneLog := hd
            subst hd'
            have hmem : sid ∉ sh.locks := by
              rw [hsh', phaseState_doneLog_locks envB sid st0]
              simpa using hlock0
            have hstep : stepThread envA sid sh ⟨ThreadPhase.ready, talog, tan⟩
                = (acquireS sid sh, ⟨ThreadPhase.inserting, talog, tan⟩) := by
              simp [stepThread, hmem]
            rw [step_true, hstep]
            refine Or.inr (Or.inr (Or.inr (Or.inr ⟨rfl, ?_⟩)))
            refine ⟨?_, Or.inl rfl,
              fun h2 => absurd h2 (show ¬2 ≤ phaseRank ThreadPhase.inserting by decide),
              fun h4 => absurd h4 (show ¬4 ≤ phaseRank ThreadPhase.inserting by decide)⟩
            show acquireS sid sh
              = phaseState envA sid (phaseState envB sid st0 ThreadPhase.doneLog)
                ThreadPhase.inserting
            rw [hsh']
            rfl
        · have had' : tap = ThreadPhase.doneNone := had
          subst had'
          rw [step_true]
          exact Or.inr (Or.inr (Or.inl ⟨⟨hsh, hcrit, hlog, hn⟩, Or.inr rfl⟩))
  · -- A finished first, B runs the second serialized attempt
    obtain ⟨hsh, hcrit, hlog, hn⟩ := hwB
    have hA' : tap = ThreadPhase.doneLog := hA
    cases w with
    | true =>
        subst hA'
        rw [step_true]
        exact Or.inr (Or.inr (Or.inr (Or.inl ⟨rfl, ⟨hsh, hcrit, hlog, hn⟩⟩)))
    | false =>
        rcases hcrit with hc | hd
        · have hadv := winner_advance envB sid (phaseState envA sid st0 ThreadPhase.doneLog)
            tbp tbl tbn sh ⟨hsh, Or.inl hc, hlog, hn⟩ hc
          rw [step_false]
          exact Or.inr (Or.inr (Or.inr (Or.inl ⟨hA', hadv⟩)))
        · have hd' : tbp = ThreadPhase.doneLog := hd
          subst hd'
          rw [step_false]
          exact Or.inr (Or.inr (Or.inr (Or.inl ⟨hA', ⟨hsh, Or.inr rfl, hlog, hn⟩⟩)))
  · -- B finished first, A runs the second serialized attempt
    obtain ⟨hsh, hcrit, hlog, hn⟩ := hwA
    have hB' : tbp = ThreadPhase.doneLog := hB
    cases w with
    | false =>
        subst hB'
        rw [step_false]
        exact Or.inr (Or.inr (Or.inr (Or.inr ⟨rfl, ⟨hsh, hcrit, hlog, hn⟩⟩)))
    | true =>
        rcases hcrit with hc | hd
        · have hadv := winner_advance envA sid (phaseState envB sid st0 ThreadPhase.doneLog)
            tap talog tan sh ⟨hsh, Or.inl hc, hlog, hn⟩ hc
          rw [step_true]
          exact Or.inr (Or.inr (Or.inr (Or.inr ⟨hB', hadv⟩)))
        · have hd' : tap = ThreadPhase.doneLog := hd
          subst hd'
          rw [step_true]
          exact Or.inr (Or.inr (Or.inr (Or.inr ⟨hB', ⟨hsh, Or.inr rfl, hlog, hn⟩⟩)))

theorem inv_init (sid : Nat) (envA envB : RefreshEnv) (st0 : EngineState) :
    Inv sid envA envB st0 (initConfig st0) :=
  Or.inl ⟨rfl, rfl, rfl⟩

theorem inv_run (sid : Nat) (envA envB : RefreshEnv) (st0 : EngineState)
    (hlock0 : st0.locks.contains sid = false) (sched : List Bool) :
    ∀ c, Inv sid envA envB st0 c →
      Inv sid envA envB st0 (run sid envA envB c sched) := by
  induction sched with
  | nil =>
      intro c h
      exact h
  | cons w ws ih =>
      intro c h
      exact ih _ (inv_step sid envA envB st0 hlock0 c w h)

theorem inv_mutex (sid : Nat) (envA envB : RefreshEnv) (st0 : EngineState)
    (c : Config) (hinv : Inv sid envA envB st0 c) :
    ¬(inCrit c.ta.phase = true ∧ inCrit c.tb.phase = true) := by
  rintro ⟨h1, h2⟩
  rcases hinv with ⟨ha, hb, _⟩ | ⟨_, hB⟩ | ⟨_, hA⟩ | ⟨hA, _⟩ | ⟨hB, _⟩
  · rw [ha] at h1
    simp [inCrit] at h1
  · rcases hB with hB | hB <;> rw [hB] at h2 <;> simp [inCrit] at h2
  · rcases hA with hA | hA <;> rw [hA] at h1 <;> simp [inCrit] at h1
  · rw [hA] at h1
    simp [inCrit] at h1
  · rw [hB] at h2
    simp [inCrit] at h2

theorem phaseState_doneLog_eq_refresh (env : RefreshEnv) (sid : Nat) (st : EngineState)
    (hl : st.locks.contains sid = false) :
    (refresh env sid st).1 = phaseState env sid st ThreadPhase.doneLog := by
  rw [refresh_state_eq env sid st hl]
  rfl


/-- Claim C2: at most one refresh invocation for a source is ever inside
the lock-protected writing section at any instant of any interleaving;
and whenever of two concurrent invocations one completes an attempt while
the other observed the held lock and returned without creating an attempt,
the final shared state is exactly that of the single completed sequential
refresh: one new FetchLog row and only that attempt's entries, with no
duplicates contributed by the second invocation. -/
theorem concurrent_refresh_exclusive (sid : Nat) (envA envB : RefreshEnv)
    (st0 : EngineState) (sched : List Bool)
    (hlock0 : st0.locks.contains sid = false)
    (hwf : wfLogs st0)
    (hA : (run sid envA envB (initConfig st0) sched).ta.phase = ThreadPhase.doneLog)
    (hB : (run sid envA envB (initConfig st0) sched).tb.phase = ThreadPhase.doneNone) :
    (run sid envA envB (initConfig st0) sched).shared = (refresh envA sid st0).1 ∧
    (run sid envA envB (initConfig st0) sched).shared.fetchLogs
      = st0.fetchLogs ++ [attemptLog envA sid st0.nextLogId (newCount envA sid st0)] ∧
    (run sid envA envB (initConfig st0) sched).shared.entries
      = (refresh envA sid st0).1.entries ∧
    (∀ sched2 : List Bool,
      ¬(inCrit (run sid envA envB (initConfig st0) sched2).ta.phase = true ∧
        inCrit (run sid envA envB (initConfig st0) sched2).tb.phase = true)) := by
  have hinv := inv_run sid envA envB st0 hlock0 sched (initConfig st0)
    (inv_init sid envA envB st0)
  have hmain : (run sid envA envB (initConfig st0) sched).shared
      = (refresh envA sid st0).1 := by
    rcases hinv with ⟨h1, _, _⟩ | ⟨hwA, _⟩ | ⟨hwB, _⟩ | ⟨_, hwB⟩ | ⟨hB', _⟩
    · rw [hA] at h1
      exact absurd h1 (by decide)
    · obtain ⟨hsh, _, _, _⟩ := hwA
      rw [hA] at hsh
      rw [hsh, phaseState_doneLog_eq_refresh envA sid st0 hlock0]
    · obtain ⟨_, hcrit, _, _⟩ := hwB
      rcases hcrit with hc | hd
      · rw [hB] at hc
        exact absurd hc (by decide)
      · rw [hB] at hd
        exact absurd hd (by decide)
    · obtain ⟨_, hcrit, _, _⟩ := hwB
      rcases hcrit with hc | hd
      · rw [hB] at hc
        exact absurd hc (by decide)
      · rw [hB] at hd
        exact absurd hd (by decide)
    · rw [hB] at hB'
      exact absurd hB' (by decide)
  refine ⟨hmain, ?_, ?_, ?_⟩
  · rw [hmain, refresh_fetchLogs envA sid st0 hlock0 hwf]
  · rw [hmain]
  · intro sched2
    exact inv_mutex sid envA envB st0 _
      (inv_run sid envA envB st0 hlock0 sched2 (initConfig st0)
        (inv_init sid envA envB st0))

/-- Claim C2 witness at a concrete interleaving: invocation B attempts the
lock right after A acquired it, observes it held, and returns; A completes
its attempt over the two-entry payload. -/
theorem concurrent_refresh_exclusive_witness :
    (run 1 envOkW envOkW2 (initConfig stW)
        [true, false, true, true, true, true, true, true]).shared
      = (refresh envOkW 1 stW).1 ∧
    (run 1 envOkW envOkW2 (initConfig stW)
        [true, false, true, true, true, true, true, true]).shared.fetchLogs
      = stW.fetchLogs ++ [attemptLog envOkW 1 stW.nextLogId (newCount envOkW 1 stW)] ∧
    (run 1 envOkW envOkW2 (initConfig stW)
        [true, false, true, true, true, true, true, true]).shared.entries
      = (refresh envOkW 1 stW).1.entries ∧
    (∀ sched2 : List Bool,
      ¬(inCrit (run 1 envOkW envOkW2 (initConfig stW) sched2).ta.phase = true ∧
        inCrit (run 1 envOkW envOkW2 (initConfig stW) sched2).tb.phase = true)) :=
  concurrent_refresh_exclusive 1 envOkW envOkW2 stW
    [true, false, true, true, true, true, true, true] (by decide)
    (by intro l h; exact absurd h (List.not_mem_nil l)) (by decide) (by decide)

end BestInfoU
